import Mathlib

/-!
Verification of the entab record-format library against its specification.

Bytes are modelled as natural numbers (each in 0..255); byte buffers as
lists of naturals.  Pure functions of the Rust source are translated into
executable Lean definitions; fallible operations return Except values;
places where the Rust code would panic (out-of-bounds indexing) are made
explicit through a dedicated outcome constructor.
-/

namespace Entab

/-- A byte, as a natural number in the range 0..255. -/
abbrev Byte := Nat

/-- Error value mirroring EtError in the source: a message, an
incomplete flag (recoverable via refill) and optional positioning. -/
structure EtErr where
  msg : String
  incomplete : Bool := false
  byte : Option Nat := none
  record : Option Nat := none
  deriving Repr, DecidableEq

/-- File-format tag, mirroring the FileType enum of filetype.rs. -/
inductive FileType where
  | Gzip | Bzip | Lzma | Zstd
  | Bam | Fasta | Fastq | Facs | Sam | Scf | Ztr
  | AgilentMsMsScan
  | AgilentChemstationFid | AgilentChemstationMs
  | AgilentChemstationMwd | AgilentChemstationUv | AgilentDad
  | BrukerBaf | BrukerMsms | InficonHapsite
  | ThermoRaw | ThermoCf | ThermoDxf | WatersAutospec
  | NetCdf | MzXml | Las | Png | Hdf5
  | DelimitedText (delim : Byte)
  | Unknown
  deriving Repr, DecidableEq

/-- The 8-byte magic table of FileType::from_magic, in source order:
three FCS variants, two LAS headers, PNG, HDF5, Inficon, Ztr, ThermoRaw. -/
def magic8Table : List (List Byte × FileType) :=
  [ ([70, 67, 83, 50, 46, 48, 32, 32], FileType.Facs),
    ([70, 67, 83, 51, 46, 48, 32, 32], FileType.Facs),
    ([70, 67, 83, 51, 46, 49, 32, 32], FileType.Facs),
    ([126, 86, 69, 82, 83, 73, 79, 78], FileType.Las),
    ([126, 86, 101, 114, 115, 105, 111, 110], FileType.Las),
    ([137, 80, 78, 71, 13, 10, 26, 10], FileType.Png),
    ([137, 72, 68, 70, 13, 10, 26, 10], FileType.Hdf5),
    ([4, 3, 2, 1, 83, 80, 65, 72], FileType.InficonHapsite),
    ([174, 90, 84, 82, 13, 10, 26, 10], FileType.Ztr),
    ([1, 161, 70, 0, 105, 0, 110, 0], FileType.ThermoRaw) ]

/-- Lookup of an 8-byte prefix in the magic table (the first matching
arm of the source's match statement). -/
def magic8Assoc (m : List Byte) : Option FileType :=
  (magic8Table.find? (fun e => e.1 = m)).map Prod.snd

/-- The 4-byte arm of FileType::from_magic.  The Thermo isotope formats
are disambiguated by a UTF-16 marker at bytes 52..64 when the prefix is
at least 78 bytes long, exactly as in the source. -/
def magic4Assoc (magic : List Byte) : Option FileType :=
  let m4 := magic.take 4
  if m4 = [66, 65, 77, 1] then some FileType.Bam
  else if m4 = [64, 72, 68, 9] ∨ m4 = [64, 83, 81, 9] then some FileType.Sam
  else if m4 = [46, 115, 99, 102] then some FileType.Scf
  else if m4 = [2, 56, 49, 0] then some FileType.AgilentChemstationFid
  else if m4 = [1, 50, 0, 0] then some FileType.AgilentChemstationMs
  else if m4 = [2, 51, 48, 0] then some FileType.AgilentChemstationMwd
  else if m4 = [3, 49, 51, 49] then some FileType.AgilentChemstationUv
  else if m4 = [40, 181, 47, 253] then some FileType.Zstd
  else if m4 = [255, 255, 6, 0] ∨ m4 = [255, 255, 5, 0] then
    if 78 ≤ magic.length ∧
        (magic.drop 52).take 12 = [67, 0, 73, 0, 115, 0, 111, 0, 71, 0, 67, 0]
    then some FileType.ThermoCf
    else some FileType.ThermoDxf
  else none

/-- FileType::from_magic: classify a byte prefix.  The 8-byte table is
consulted only when the buffer is strictly longer than 8 bytes, the
4-byte table only when strictly longer than 4, then the 2-byte and
1-byte rules, else Unknown — mirroring the source's guards. -/
def fromMagic (magic : List Byte) : FileType :=
  match (if 8 < magic.length then magic8Assoc (magic.take 8) else none) with
  | some ft => ft
  | none =>
  match (if 4 < magic.length then magic4Assoc magic else none) with
  | some ft => ft
  | none =>
  if magic.length < 2 then FileType.Unknown
  else
    let m2 := magic.take 2
    if m2 = [15, 139] ∨ m2 = [31, 139] then FileType.Gzip
    else if m2 = [66, 90] then FileType.Bzip
    else if m2 = [253, 55] then FileType.Lzma
    else if m2 = [36, 0] then FileType.BrukerBaf
    else if m2 = [67, 68] then FileType.NetCdf
    else
      let m1 := magic.take 1
      if m1 = [62] then FileType.Fasta
      else if m1 = [64] then FileType.Fastq
      else FileType.Unknown

/-- FileType::from_parser_name: map a parser name to its FileType. -/
def fromParserName (s : String) : FileType :=
  match s with
  | "chemstation_fid" => FileType.AgilentChemstationFid
  | "chemstation_ms" => FileType.AgilentChemstationMs
  | "chemstation_mwd" => FileType.AgilentChemstationMwd
  | "chemstation_uv" => FileType.AgilentChemstationUv
  | "csv" => FileType.DelimitedText 44
  | "bam" => FileType.Bam
  | "fcs" => FileType.Facs
  | "fasta" => FileType.Fasta
  | "fastq" => FileType.Fastq
  | "inficon" => FileType.InficonHapsite
  | "png" => FileType.Png
  | "sam" => FileType.Sam
  | "thermo_cf" => FileType.ThermoCf
  | "thermo_dxf" => FileType.ThermoDxf
  | "tsv" => FileType.DelimitedText 9
  | _ => FileType.Unknown

/-- Rust Debug rendering of a FileType, used by the fallback arm of
to_parser_name. -/
def debugName : FileType → String
  | FileType.Gzip => "Gzip"
  | FileType.Bzip => "Bzip"
  | FileType.Lzma => "Lzma"
  | FileType.Zstd => "Zstd"
  | FileType.Bam => "Bam"
  | FileType.Fasta => "Fasta"
  | FileType.Fastq => "Fastq"
  | FileType.Facs => "Facs"
  | FileType.Sam => "Sam"
  | FileType.Scf => "Scf"
  | FileType.Ztr => "Ztr"
  | FileType.AgilentMsMsScan => "AgilentMsMsScan"
  | FileType.AgilentChemstationFid => "AgilentChemstationFid"
  | FileType.AgilentChemstationMs => "AgilentChemstationMs"
  | FileType.AgilentChemstationMwd => "AgilentChemstationMwd"
  | FileType.AgilentChemstationUv => "AgilentChemstationUv"
  | FileType.AgilentDad => "AgilentDad"
  | FileType.BrukerBaf => "BrukerBaf"
  | FileType.BrukerMsms => "BrukerMsms"
  | FileType.InficonHapsite => "InficonHapsite"
  | FileType.ThermoRaw => "ThermoRaw"
  | FileType.ThermoCf => "ThermoCf"
  | FileType.ThermoDxf => "ThermoDxf"
  | FileType.WatersAutospec => "WatersAutospec"
  | FileType.NetCdf => "NetCdf"
  | FileType.MzXml => "MzXml"
  | FileType.Las => "Las"
  | FileType.Png => "Png"
  | FileType.Hdf5 => "Hdf5"
  | FileType.DelimitedText d => "DelimitedText(" ++ toString d ++ ")"
  | FileType.Unknown => "Unknown"

/-- FileType::to_parser_name: the parser name for a file type; named
formats map to their parser name, everything else to an
unsupported-prefixed Debug rendering. -/
def toParserName (ft : FileType) : String :=
  match ft with
  | FileType.AgilentChemstationFid => "chemstation_fid"
  | FileType.AgilentChemstationMs => "chemstation_ms"
  | FileType.AgilentChemstationMwd => "chemstation_mwd"
  | FileType.AgilentChemstationUv => "chemstation_uv"
  | FileType.Bam => "bam"
  | FileType.Facs => "fcs"
  | FileType.Fasta => "fasta"
  | FileType.Fastq => "fastq"
  | FileType.InficonHapsite => "inficon"
  | FileType.Png => "png"
  | FileType.Sam => "sam"
  | FileType.ThermoCf => "thermo_cf"
  | FileType.ThermoDxf => "thermo_dxf"
  | FileType.DelimitedText 44 => "csv"
  | FileType.DelimitedText 9 => "tsv"
  | ft' => "unsupported/" ++ debugName ft'

/-- The named (supported) parser names: the non-default arms of
from_parser_name. -/
def supportedParserNames : List String :=
  [ "chemstation_fid", "chemstation_ms", "chemstation_mwd",
    "chemstation_uv", "csv", "bam", "fcs", "fasta", "fastq",
    "inficon", "png", "sam", "thermo_cf", "thermo_dxf", "tsv" ]

end Entab

namespace Entab

/-- C5: for every supported format name, from_parser_name followed by
to_parser_name returns the original name without loss. -/
theorem parser_name_round_trip :
    supportedParserNames.all
      (fun n => toParserName (fromParserName n) == n) = true := by
  decide

/-- C10: FileType::from_magic is total (it is a Lean function), and any
buffer shorter than 2 bytes classifies as Unknown, even a single '>' or
'@' byte. -/
theorem from_magic_short_unknown (m : List Byte) (h : m.length < 2) :
    fromMagic m = FileType.Unknown := by
  have h8 : ¬ (8 < m.length) := by omega
  have h4 : ¬ (4 < m.length) := by omega
  simp [fromMagic, h8, h4, h]

/-- Witness for from_magic_short_unknown at the single byte '>'. -/
theorem from_magic_short_unknown_witness :
    ([62] : List Byte).length < 2 ∧ fromMagic [62] = FileType.Unknown :=
  ⟨by decide, from_magic_short_unknown [62] (by decide)⟩

/-- C2, counterexample: the buffer consisting of exactly the 8 bytes
"FCS2.0  " has length 8 (at least 8), its first 8 bytes are a registered
8-byte magic whose file type is Facs, yet from_magic classifies it as
Unknown — the source consults the 8-byte table only for buffers strictly
longer than 8 bytes. -/
theorem from_magic_len8_counterexample :
    8 ≤ ([70, 67, 83, 50, 46, 48, 32, 32] : List Byte).length ∧
    magic8Assoc (([70, 67, 83, 50, 46, 48, 32, 32] : List Byte).take 8) =
      some FileType.Facs ∧
    fromMagic [70, 67, 83, 50, 46, 48, 32, 32] ≠ FileType.Facs := by
  refine ⟨by decide, by decide, ?_⟩
  decide

/-- C2, amended: for every buffer of length at least 9 whose first
8 bytes equal a registered 8-byte magic, from_magic returns that magic's
file type, identically regardless of the trailing bytes. -/
theorem from_magic_eight_byte (m : List Byte) (ft : FileType)
    (hlen : 9 ≤ m.length) (hm : magic8Assoc (m.take 8) = some ft) :
    fromMagic m = ft := by
  have h8 : 8 < m.length := by omega
  simp [fromMagic, h8, hm]

/-- Witness for from_magic_eight_byte: the PNG magic followed by a
trailing byte. -/
theorem from_magic_eight_byte_witness :
    fromMagic [137, 80, 78, 71, 13, 10, 26, 10, 0] = FileType.Png :=
  from_magic_eight_byte [137, 80, 78, 71, 13, 10, 26, 10, 0] FileType.Png
    (by decide) (by decide)

end Entab

namespace Entab

/-- Index of the first occurrence of a byte in a list (memchr). -/
def firstIdx (b : Byte) : List Byte → Option Nat
  | [] => none
  | x :: xs => if x = b then some 0 else (firstIdx b xs).map (· + 1)

/-- A found index is inside the list. -/
theorem firstIdx_lt {b : Byte} {l : List Byte} {p : Nat}
    (h : firstIdx b l = some p) : p < l.length := by
  induction l generalizing p with
  | nil => simp [firstIdx] at h
  | cons x xs ih =>
    simp only [firstIdx] at h
    split at h
    · simp only [Option.some.injEq] at h
      subst h
      simp
    · simp only [Option.map_eq_some'] at h
      obtain ⟨p', hp', rfl⟩ := h
      have := ih hp'
      simp only [List.length_cons]
      omega

/-- The byte slice between two offsets (truncating at the end). -/
def slice (l : List Byte) (a b : Nat) : List Byte := (l.drop a).take (b - a)

/-- Parsing state of the FASTQ decoder: header end and the sequence and
quality offset pairs (FastqState in fastq.rs). -/
structure FastqState where
  headerEnd : Nat := 0
  seqS : Nat := 0
  seqE : Nat := 0
  qualS : Nat := 0
  qualE : Nat := 0
  deriving Repr, DecidableEq

/-- A decoded FASTQ record: id, sequence and quality byte slices. -/
structure FastqRec where
  id : List Byte
  sequence : List Byte
  quality : List Byte
  deriving Repr, DecidableEq

/-- FastqRecord::parse from fastq.rs: recognize one FASTQ record at the
front of the buffer.  Returns (more-records?, state, consumed) on
success; incomplete errors signal a need for more bytes. -/
def fastqParse (buf : List Byte) (eof : Bool) :
    Except EtErr (Bool × FastqState × Nat) :=
  if buf.isEmpty then
    if eof then Except.ok (false, {}, 0)
    else Except.error { msg := "No FASTQ could be parsed", incomplete := true }
  else if buf.get? 0 ≠ some 64 then
    Except.error { msg := "Valid FASTQ records start with '@'" }
  else
    match firstIdx 10 buf with
    | none =>
        Except.error { msg := "Record ended prematurely in header", incomplete := true }
    | some p =>
      let headerEnd := if 0 < p ∧ buf.get? (p - 1) = some 13 then p - 1 else p
      let seqStart := p + 1
      match firstIdx 43 (buf.drop seqStart) with
      | none =>
          Except.error { msg := "Record ended prematurely in sequence", incomplete := true }
      | some q =>
        if q = 0 ∨ buf.get? (seqStart + q - 1) ≠ some 10 then
          Except.error { msg := "Unexpected + found in sequence" }
        else
          let seqE :=
            if 2 < seqStart + q ∧ buf.get? (seqStart + q - 2) = some 13
            then seqStart + q - 2 else seqStart + q - 1
          let id2Start := seqStart + q
          match firstIdx 10 (buf.drop id2Start) with
          | none =>
              Except.error { msg := "Record ended prematurely in second header", incomplete := true }
          | some r =>
            let qualStart := id2Start + r + 1
            let qualEnd := qualStart + (seqE - seqStart)
            let recEnd0 := qualEnd + (id2Start - seqE)
            let recEnd :=
              if buf.length < recEnd0 ∧ eof
              then recEnd0 - (id2Start - seqE) else recEnd0
            if buf.length < recEnd then
              Except.error { msg := "Record ended prematurely in quality", incomplete := true }
            else
              Except.ok (true,
                { headerEnd := headerEnd, seqS := seqStart, seqE := seqE,
                  qualS := qualStart, qualE := qualEnd }, recEnd)

/-- FastqRecord::get from fastq.rs: slice the record fields out of the
buffer using the offsets computed by parse. -/
def fastqGet (buf : List Byte) (st : FastqState) : FastqRec :=
  { id := slice buf 1 st.headerEnd,
    sequence := slice buf st.seqS st.seqE,
    quality := slice buf st.qualS st.qualE }

end Entab

namespace Entab

/-- C7: whenever the FASTQ parser succeeds with a record, the decoded
quality slice has exactly the length of the decoded sequence slice:
the quality bound is derived from the sequence bounds, not scanned. -/
theorem fastq_quality_length (buf : List Byte) (eof : Bool)
    (st : FastqState) (recEnd : Nat)
    (h : fastqParse buf eof = Except.ok (true, st, recEnd)) :
    (fastqGet buf st).quality.length = (fastqGet buf st).sequence.length := by
  simp only [fastqParse] at h
  split at h
  · split at h
    · simp at h
    · exact Except.noConfusion h
  · split at h
    · exact Except.noConfusion h
    · split at h
      · exact Except.noConfusion h
      · rename_i p hp
        split at h
        · exact Except.noConfusion h
        · rename_i q hq
          split at h
          · exact Except.noConfusion h
          · rename_i hplus
            have hqlt : q < (buf.drop (p + 1)).length := firstIdx_lt hq
            rw [List.length_drop] at hqlt
            repeat' split at h
            all_goals try exact Except.noConfusion h
            all_goals (
              simp only [Except.ok.injEq, Prod.mk.injEq, true_and] at h
              obtain ⟨hst, -⟩ := h
              subst hst
              simp only [fastqGet, slice, List.length_take, List.length_drop]
              omega)

end Entab

namespace Entab

/-- C7 witness: a concrete two-line FASTQ record; the parser succeeds
and quality length equals sequence length. -/
theorem fastq_quality_length_witness :
    (fastqGet [64, 105, 100, 10, 65, 67, 71, 84, 10, 43, 10, 33, 33, 33, 33, 10]
        ⟨3, 4, 8, 11, 15⟩).quality.length =
      (fastqGet [64, 105, 100, 10, 65, 67, 71, 84, 10, 43, 10, 33, 33, 33, 33, 10]
        ⟨3, 4, 8, 11, 15⟩).sequence.length :=
  fastq_quality_length
    [64, 105, 100, 10, 65, 67, 71, 84, 10, 43, 10, 33, 33, 33, 33, 10]
    true ⟨3, 4, 8, 11, 15⟩ 16 (by rfl)

/-- C3, counterexample: in the buffer "@a\n+\nb\n!" the first '+'
(index 3) begins its own line — the byte before it is a newline — yet
the parser rejects the record with "Unexpected + found in sequence"
instead of accepting the '+' as the third-line marker. -/
theorem fastq_plus_counterexample :
    ([64, 97, 10, 43, 10, 98, 10, 33] : List Byte).get? 3 = some 43 ∧
    ([64, 97, 10, 43, 10, 98, 10, 33] : List Byte).get? 2 = some 10 ∧
    fastqParse [64, 97, 10, 43, 10, 98, 10, 33] true =
      Except.error { msg := "Unexpected + found in sequence" } :=
  ⟨rfl, rfl, rfl⟩

/-- C3, amended: given a FASTQ buffer starting with '@' whose header
ends at the first newline (index p) and whose post-header region has its
first '+' at relative offset q, the parser accepts that '+' as the
third-line marker (does not fail with "Unexpected + found in sequence")
exactly when the '+' is immediately preceded by a newline AND is not the
very first character after the header line (q > 0); it never scans for a
later line-starting '+'. -/
theorem fastq_plus_marker (buf : List Byte) (eof : Bool) (p q : Nat)
    (h0 : buf.get? 0 = some 64)
    (h1 : firstIdx 10 buf = some p)
    (h2 : firstIdx 43 (buf.drop (p + 1)) = some q) :
    (∀ e, fastqParse buf eof = Except.error e →
        e.msg ≠ "Unexpected + found in sequence")
      ↔ (0 < q ∧ buf.get? (p + q) = some 10) := by
  have hne : buf.isEmpty = false := by
    cases buf with
    | nil => simp at h0
    | cons x xs => rfl
  simp only [fastqParse, hne, h0, h1, h2]
  norm_num
  by_cases hA : q = 0 ∨ ¬ buf[p + q]? = some 10
  · rw [if_pos hA]
    apply iff_of_false
    · intro hL
      exact hL _ rfl rfl
    · rintro ⟨hq, hga⟩
      rcases hA with h | h
      · omega
      · exact h hga
  · rw [if_neg hA]
    push_neg at hA
    obtain ⟨hq0, hq10⟩ := hA
    constructor
    · intro _
      exact ⟨Nat.pos_of_ne_zero hq0, hq10⟩
    · intro _ e he
      repeat' split at he
      all_goals first
        | exact Except.noConfusion he
        | (simp only [Except.error.injEq] at he
           subst he
           decide)

/-- Witness for fastq_plus_marker at the record "@id\nACGT\n+\n!!!!\n":
the first '+' sits at offset 5 of the post-header region and follows a
newline, so the equivalence instantiates with both sides true. -/
theorem fastq_plus_marker_witness :
    (∀ e, fastqParse [64, 105, 100, 10, 65, 67, 71, 84, 10, 43, 10, 33, 33, 33, 33, 10]
          true = Except.error e →
        e.msg ≠ "Unexpected + found in sequence")
      ↔ (0 < 5 ∧
          ([64, 105, 100, 10, 65, 67, 71, 84, 10, 43, 10, 33, 33, 33, 33, 10] :
            List Byte).get? (3 + 5) = some 10) :=
  fastq_plus_marker
    [64, 105, 100, 10, 65, 67, 71, 84, 10, 43, 10, 33, 33, 33, 33, 10]
    true 3 5 (by rfl) (by rfl) (by rfl)

end Entab

namespace Entab

/-- All indices of a byte in a list, in increasing order (memchr_iter). -/
def idxsOf (b : Byte) : List Byte → List Nat
  | [] => []
  | x :: xs =>
    if x = b then 0 :: (idxsOf b xs).map (· + 1)
    else (idxsOf b xs).map (· + 1)

/-- A FASTA sequence: either a zero-copy borrowed view of the buffer or
an owned reassembled copy (the two Cow variants in fasta.rs). -/
inductive SeqBytes where
  | borrowed (bytes : List Byte)
  | owned (bytes : List Byte)
  deriving Repr, DecidableEq

/-- A decoded FASTA record. -/
structure FastaRec where
  id : List Byte
  sequence : SeqBytes
  deriving Repr, DecidableEq

/-- The memchr_iter loop of the FASTA reader: walk the newline positions
of the sequence region (relative to seq_start), record each (with the
preceding carriage return when present), and stop when the byte after a
newline is '>'.  Returns the recorded positions and the found-end flag. -/
def fastaScanLines (rb : List Byte) (seqStart : Nat) : List Nat → (List Nat × Bool)
  | [] => ([], false)
  | raw :: rest =>
    let pos := seqStart + raw
    let entries :=
      if 0 < pos ∧ rb.get? (pos - 1) = some 13 then [raw - 1, raw] else [raw]
    if pos + 1 < rb.length ∧ rb.get? (pos + 1) = some 62 then (entries, true)
    else
      let scanned := fastaScanLines rb seqStart rest
      (entries ++ scanned.1, scanned.2)

/-- The trailing-newline trim loop of the FASTA reader: starting from the
popped end position, keep popping while the next recorded newline is
directly adjacent (e.g. the \r of a \r\n pair).  Operates on the
reversed remainder of the recorded positions. -/
def trimNewlines : Nat → List Nat → (Nat × List Nat)
  | endpos, [] => (endpos, [])
  | endpos, x :: rest =>
    if 0 < endpos ∧ x = endpos - 1 then trimNewlines x rest
    else (endpos, x :: rest)

/-- The reassembly loop of the FASTA reader: concatenate the spans of the
raw sequence lying between the recorded newline positions. -/
def joinSpans (seq : List Byte) : List Nat → Nat → List Byte
  | [], start => slice seq start seq.length
  | pos :: rest, start => slice seq start pos ++ joinSpans seq rest (pos + 1)

/-- One step of the FASTA reader (FromBuffer for Option of FastaRecord in
fasta.rs) over a fully buffered source.  Modelled from the spec: the
streaming buffer itself is not among the sources; per the spec a
slice-backed buffer holds the whole input in its window with eof reached,
so refill adds nothing and the reader's retry loop runs its body once.
Returns the decoded record and the consumed length, or none at the end
of the stream. -/
def fastaGetRecord (rb : List Byte) : Except String (Option (FastaRec × Nat)) :=
  if rb.isEmpty then Except.ok none
  else if rb.get? 0 ≠ some 62 then
    Except.error "Valid FASTA records start with '>'"
  else
    match firstIdx 10 rb with
    | none => Except.error "Incomplete record"
    | some pnl =>
      let headerEnd := if 0 < pnl ∧ rb.get? (pnl - 1) = some 13 then pnl - 1 else pnl
      let seqStart := pnl + 1
      let scanned := fastaScanLines rb seqStart (idxsOf 10 (rb.drop seqStart))
      let ends :=
        if scanned.2 then
          match scanned.1.reverse with
          | [] => (rb.length, rb.length, ([] : List Nat))
          | ep :: restRev =>
            let trimmed := trimNewlines ep restRev
            (seqStart + trimmed.1, seqStart + ep + 1, trimmed.2.reverse)
        else (rb.length, rb.length, scanned.1)
      let record := rb.take ends.2.1
      let header := slice record 1 headerEnd
      let rawSequence := slice record seqStart ends.1
      let sequence :=
        if ends.2.2.isEmpty then SeqBytes.borrowed rawSequence
        else SeqBytes.owned (joinSpans rawSequence ends.2.2 0)
      Except.ok (some ({ id := header, sequence := sequence }, ends.2.1))

/-- Drive the FASTA reader to the end of the stream, collecting records
(fuel bounds the recursion; each accepted record consumes its bytes). -/
def fastaRecords : Nat → List Byte → Except String (List FastaRec)
  | 0, _ => Except.error "fuel exhausted"
  | fuel + 1, rb =>
    match fastaGetRecord rb with
    | Except.error e => Except.error e
    | Except.ok none => Except.ok []
    | Except.ok (some (rec, recEnd)) =>
      match fastaRecords fuel (rb.drop recEnd) with
      | Except.error e => Except.error e
      | Except.ok recs => Except.ok (rec :: recs)

end Entab

namespace Entab

/-- C8: decoding ">id\nACGT\nAAAA\n>id2\nTGCA" yields the record
(id, "ACGTAAAA") as an owned copy reassembled across the internal
newline, then the record (id2, "TGCA") as a zero-copy borrowed view,
then done. -/
theorem fasta_two_records :
    fastaRecords 24
        [62, 105, 100, 10, 65, 67, 71, 84, 10, 65, 65, 65, 65, 10,
         62, 105, 100, 50, 10, 84, 71, 67, 65] =
      Except.ok
        [ { id := [105, 100],
            sequence := SeqBytes.owned [65, 67, 71, 84, 65, 65, 65, 65] },
          { id := [105, 100, 50],
            sequence := SeqBytes.borrowed [84, 71, 67, 65] } ] := by
  rfl

end Entab

namespace Entab

/-- Accumulate the decimal value of a digit run; any non-digit byte
fails (Rust FromStr for unsigned integers, digits part). -/
def digitsVal : List Byte → Nat → Option Nat
  | [], acc => some acc
  | d :: rest, acc =>
    if 48 ≤ d ∧ d ≤ 57 then digitsVal rest (acc * 10 + (d - 48)) else none

/-- Rust unsigned-integer FromStr of width w bits: an optional leading
'+', at least one digit, and the value within 2^w. -/
def parseUInt (w : Nat) (s : List Byte) : Option Nat :=
  let digits := if s.get? 0 = some 43 then s.drop 1 else s
  if digits.isEmpty then none
  else match digitsVal digits 0 with
    | none => none
    | some v => if v < 2 ^ w then some v else none

/-- Rust i32 FromStr: optional sign, digits, two's-complement range. -/
def parseI32 (s : List Byte) : Option Int :=
  let neg := s.get? 0 = some 45
  let digits := if s.get? 0 = some 45 ∨ s.get? 0 = some 43 then s.drop 1 else s
  if digits.isEmpty then none
  else match digitsVal digits 0 with
    | none => none
    | some v =>
      if neg then (if v ≤ 2 ^ 31 then some (-(v : Int)) else none)
      else (if v < 2 ^ 31 then some (v : Int) else none)

/-- A decoded SAM record (SamRecord in sam.rs). -/
structure SamRec where
  query_name : List Byte
  flag : Nat
  ref_name : List Byte
  pos : Option Nat
  mapq : Option Nat
  cigar : List Byte
  rnext : List Byte
  pnext : Option Nat
  tlen : Int
  seq : List Byte
  qual : List Byte
  extra : List Byte
  deriving Repr, DecidableEq

/-- The 1-based position rule of strs_to_sam: the exact field "0"
decodes to absent; any other field parses as an unsigned integer of the
given width and then has 1 subtracted (converting to 0-based, with the
wrapping subtraction of release-mode Rust at value 0).  The outer none
is a parse failure. -/
def samOptPos (w : Nat) (field : List Byte) : Option (Option Nat) :=
  if field = [48] then some none
  else match parseUInt w field with
    | none => none
    | some v => some (some ((v + (2 ^ w - 1)) % 2 ^ w))

/-- The mapping-quality rule of strs_to_sam: the exact field "255"
decodes to absent, any other field parses as a u8. -/
def samOptMapq (field : List Byte) : Option (Option Nat) :=
  if field = [50, 53, 53] then some none
  else match parseUInt 8 field with
    | none => none
    | some v => some (some v)

/-- The star rule of strs_to_sam: the field "*" decodes to empty. -/
def samStar (field : List Byte) : List Byte :=
  if field = [42] then [] else field

/-- strs_to_sam from sam.rs: decode the tab-split fields of one SAM data
line into a SamRecord; fewer than 11 fields is a hard error. -/
def strsToSam (chunks : List (List Byte)) : Except EtErr SamRec :=
  if chunks.length < 11 then Except.error { msg := "Sam record too short" }
  else
    match samOptPos 64 (chunks.getD 3 []) with
    | none => Except.error { msg := "invalid position field" }
    | some pos =>
      match samOptMapq (chunks.getD 4 []) with
      | none => Except.error { msg := "invalid mapping quality field" }
      | some mapq =>
        match samOptPos 32 (chunks.getD 7 []) with
        | none => Except.error { msg := "invalid next position field" }
        | some pnext =>
          let extra :=
            if chunks.length = 11 then ([] : List Byte)
            else if chunks.length = 12 then chunks.getD 11 []
            else (chunks.drop 12).foldl (fun acc c => acc ++ 124 :: c)
              (chunks.getD 11 [])
          match parseUInt 16 (chunks.getD 1 []) with
          | none => Except.error { msg := "invalid flag field" }
          | some flag =>
            match parseI32 (chunks.getD 8 []) with
            | none => Except.error { msg := "invalid template length field" }
            | some tlen =>
              Except.ok
                { query_name := chunks.getD 0 [],
                  flag := flag,
                  ref_name := samStar (chunks.getD 2 []),
                  pos := pos,
                  mapq := mapq,
                  cigar := samStar (chunks.getD 5 []),
                  rnext := samStar (chunks.getD 6 []),
                  pnext := pnext,
                  tlen := tlen,
                  seq := samStar (chunks.getD 9 []),
                  qual := samStar (chunks.getD 10 []),
                  extra := extra }

end Entab

namespace Entab

/-- C9: for every SAM data line that decodes to a record, a position
field of exactly "1" decodes to parsed position 0 and a field of
exactly "0" decodes to an absent position; the identical rule applies to
the next-position field. -/
theorem sam_position_rule (chunks : List (List Byte)) (r : SamRec)
    (h : strsToSam chunks = Except.ok r) :
    (chunks.getD 3 [] = [49] → r.pos = some 0) ∧
    (chunks.getD 3 [] = [48] → r.pos = none) ∧
    (chunks.getD 7 [] = [49] → r.pnext = some 0) ∧
    (chunks.getD 7 [] = [48] → r.pnext = none) := by
  simp only [strsToSam] at h
  split at h
  · exact Except.noConfusion h
  · cases hp : samOptPos 64 (chunks.getD 3 []) with
    | none => rw [hp] at h; exact Except.noConfusion h
    | some pos =>
      rw [hp] at h
      cases hm : samOptMapq (chunks.getD 4 []) with
      | none => rw [hm] at h; exact Except.noConfusion h
      | some mapq =>
        rw [hm] at h
        cases hpn : samOptPos 32 (chunks.getD 7 []) with
        | none => rw [hpn] at h; exact Except.noConfusion h
        | some pnext =>
          rw [hpn] at h
          cases hf : parseUInt 16 (chunks.getD 1 []) with
          | none => rw [hf] at h; exact Except.noConfusion h
          | some flag =>
            rw [hf] at h
            cases ht : parseI32 (chunks.getD 8 []) with
            | none => rw [ht] at h; exact Except.noConfusion h
            | some tlen =>
              rw [ht] at h
              simp only [Except.ok.injEq] at h
              subst h
              refine ⟨?_, ?_, ?_, ?_⟩
              · intro hc
                rw [hc] at hp
                have he : samOptPos 64 [49] = some (some 0) := by decide
                rw [he] at hp
                injection hp with hp
                simpa using hp.symm
              · intro hc
                rw [hc] at hp
                have he : samOptPos 64 [48] = some none := by decide
                rw [he] at hp
                injection hp with hp
                simpa using hp.symm
              · intro hc
                rw [hc] at hpn
                have he : samOptPos 32 [49] = some (some 0) := by decide
                rw [he] at hpn
                injection hpn with hpn
                simpa using hpn.symm
              · intro hc
                rw [hc] at hpn
                have he : samOptPos 32 [48] = some none := by decide
                rw [he] at hpn
                injection hpn with hpn
                simpa using hpn.symm

/-- Witness for sam_position_rule at a concrete 11-field SAM line whose
position field is "1" and whose next-position field is "0". -/
theorem sam_position_rule_witness :
    (([[113], [48], [42], [49], [50, 53, 53], [42], [42], [48], [48], [42], [42]] :
        List (List Byte)).getD 3 [] = [49] →
      (⟨[113], 0, [], some 0, none, [], [], none, 0, [], [], []⟩ : SamRec).pos =
        some 0) ∧
    (([[113], [48], [42], [49], [50, 53, 53], [42], [42], [48], [48], [42], [42]] :
        List (List Byte)).getD 3 [] = [48] →
      (⟨[113], 0, [], some 0, none, [], [], none, 0, [], [], []⟩ : SamRec).pos =
        none) ∧
    (([[113], [48], [42], [49], [50, 53, 53], [42], [42], [48], [48], [42], [42]] :
        List (List Byte)).getD 7 [] = [49] →
      (⟨[113], 0, [], some 0, none, [], [], none, 0, [], [], []⟩ : SamRec).pnext =
        some 0) ∧
    (([[113], [48], [42], [49], [50, 53, 53], [42], [42], [48], [48], [42], [42]] :
        List (List Byte)).getD 7 [] = [48] →
      (⟨[113], 0, [], some 0, none, [], [], none, 0, [], [], []⟩ : SamRec).pnext =
        none) :=
  sam_position_rule
    [[113], [48], [42], [49], [50, 53, 53], [42], [42], [48], [48], [42], [42]]
    ⟨[113], 0, [], some 0, none, [], [], none, 0, [], [], []⟩ (by rfl)

/-- The next-record envelope of the host-binding layer (NextRecord in
entab-js lib.rs): an optional field-name-to-value mapping plus a done
flag. -/
structure NextRecord (V : Type) where
  value : Option (List (String × V))
  done : Bool
  deriving Repr, DecidableEq

/-- Reader::next of entab-js lib.rs: with a record from the underlying
reader, zip the header names with the values and report done := false;
with no record left, report no value — and still done := false. -/
def jsReaderNext {V : Type} (headers : List String) (rec : Option (List V)) :
    NextRecord V :=
  match rec with
  | some v => { value := some (headers.zip v), done := false }
  | none => { value := none, done := false }

/-- C4: when the underlying reader is exhausted (next_record returns no
record), Reader::next of the host-binding layer answers with no value
but done := false — never the "done" signal the contract requires. -/
theorem js_next_exhausted_not_done :
    jsReaderNext (V := Nat) ["id", "sequence", "quality"] none =
      { value := none, done := false } := by
  rfl

end Entab

namespace Entab

/-- The canonical not-enough-bytes error of the extraction layer. -/
def premErr : EtErr := { msg := "Record ended prematurely", incomplete := true }

/-- Modelled from the spec: raw byte extraction from the window of a
fully buffered (slice-backed) stream — the ReadBuffer implementation is
not among the sources.  Consume n bytes when the window holds them;
with eof already reached, asking for more is the premature-end
(incomplete) error. -/
def extractBytes (n : Nat) (l : List Byte) : Except EtErr (List Byte × List Byte) :=
  if n ≤ l.length then Except.ok (l.take n, l.drop n)
  else Except.error premErr

/-- Little-endian value of a byte list. -/
def leNat : List Byte → Nat
  | [] => 0
  | b :: rest => b + 256 * leNat rest

/-- Modelled from the spec: extraction of an n-byte little-endian
unsigned integer. -/
def extractU (n : Nat) (l : List Byte) : Except EtErr (Nat × List Byte) :=
  match extractBytes n l with
  | Except.error e => Except.error e
  | Except.ok (bs, rest) => Except.ok (leNat bs, rest)

/-- Modelled from the spec: extraction of a little-endian i32
(two's complement). -/
def extractI32 (l : List Byte) : Except EtErr (Int × List Byte) :=
  match extractU 4 l with
  | Except.error e => Except.error e
  | Except.ok (v, rest) =>
    Except.ok (if v < 2 ^ 31 then (v : Int) else (v : Int) - 2 ^ 32, rest)

/-- Outcome of running translated Rust code that can also panic: the
Rust indexing operations abort the process when out of bounds, which no
error value can represent. -/
inductive ROut (α : Type) where
  | ok : α → ROut α
  | err : EtErr → ROut α
  | panic : ROut α
  deriving Repr

/-- A decoded BAM record (BamRecord in sam.rs). -/
structure BamRec where
  query_name : List Byte
  flag : Nat
  ref_name : List Byte
  pos : Option Nat
  mapq : Option Nat
  cigar : List Byte
  rnext : List Byte
  pnext : Option Nat
  tlen : Int
  seq : List Byte
  qual : List Byte
  extra : List Byte
  deriving Repr, DecidableEq

/-- Decimal digits (ASCII) of a natural number, as Rust's to_string. -/
def natDecimal (n : Nat) : List Byte := (Nat.toDigits 10 n).map Char.toNat

/-- The CIGAR decode loop of extract_bam_record: n_cigar_op four-byte
little-endian packed ops read from data starting at start; each renders
as the run length in decimal followed by the opcode letter from
"MIDNSHP=X".  Returns the rendered bytes and the new start offset. -/
def cigarLoop (data : List Byte) : Nat → Nat → List Byte → ROut (List Byte × Nat)
  | 0, start, acc => ROut.ok (acc, start)
  | n + 1, start, acc =>
    if start + 4 ≤ data.length then
      let op := leNat ((data.drop start).take 4)
      cigarLoop data n (start + 4)
        (acc ++ natDecimal (op / 16) ++
          [[77, 73, 68, 78, 83, 72, 80, 61, 88].getD (op % 8) 0])
    else ROut.err premErr

/-- The 4-bit packed base table "=ACMGRSVTWYHKDBN" of
extract_bam_record. -/
def baseTable : List Byte :=
  [61, 65, 67, 77, 71, 82, 83, 86, 84, 87, 89, 72, 75, 68, 66, 78]

/-- The packed-sequence decode loop of extract_bam_record: seq_len
nibbles (high nibble first, two bases per byte) looked up in the base
table.  Every access is in bounds when the caller's length check
passed. -/
def seqDecode (data : List Byte) (start seqLen : Nat) : List Byte :=
  (List.range seqLen).map (fun idx =>
    let byte := data.getD (start + idx / 2) 0
    baseTable.getD (if idx % 2 = 0 then byte / 16 else byte % 16) 0)

/-- extract_bam_record from sam.rs, over the current window of a fully
buffered source.  The two places where the Rust code indexes without a
bounds check — the quality sentinel data[start] and the quality slice
data[start..start + seq_len] — surface as the panic outcome when out of
bounds. -/
def extractBamRecord (reader : List Byte) (recordLen : Nat)
    (references : List (List Byte × Nat)) : ROut (BamRec × List Byte) :=
  if recordLen < 32 then ROut.err { msg := "Record is unexpectedly short" }
  else
  match extractI32 reader with
  | Except.error e => ROut.err e
  | Except.ok (rawRefNameId, r1) =>
  if ¬ rawRefNameId < 0 ∧ (references.length : Int) ≤ rawRefNameId then
    ROut.err { msg := "Invalid reference sequence ID" }
  else
  let refName :=
    if rawRefNameId < 0 then []
    else (references.getD rawRefNameId.toNat ([], 0)).1
  match extractI32 r1 with
  | Except.error e => ROut.err e
  | Except.ok (rawPos, r2) =>
  let pos : Option Nat :=
    if rawPos = -1 then none else some ((rawPos % (2 ^ 64 : Int)).toNat)
  match extractU 1 r2 with
  | Except.error e => ROut.err e
  | Except.ok (queryNameLen, r3) =>
  match extractU 1 r3 with
  | Except.error e => ROut.err e
  | Except.ok (rawMapq, r4) =>
  let mapq := if rawMapq = 255 then none else some rawMapq
  match extractBytes 2 r4 with
  | Except.error e => ROut.err e
  | Except.ok (_, r5) =>
  match extractU 2 r5 with
  | Except.error e => ROut.err e
  | Except.ok (nCigarOp, r6) =>
  match extractU 2 r6 with
  | Except.error e => ROut.err e
  | Except.ok (flag, r7) =>
  match extractU 4 r7 with
  | Except.error e => ROut.err e
  | Except.ok (seqLen, r8) =>
  match extractI32 r8 with
  | Except.error e => ROut.err e
  | Except.ok (rawRnextId, r9) =>
  if ¬ rawRnextId < 0 ∧ (references.length : Int) ≤ rawRnextId then
    ROut.err { msg := "Invalid next reference sequence ID" }
  else
  let rnext :=
    if rawRnextId < 0 then []
    else (references.getD rawRnextId.toNat ([], 0)).1
  match extractI32 r9 with
  | Except.error e => ROut.err e
  | Except.ok (rawPnext, r10) =>
  let pnext : Option Nat :=
    if rawPnext = -1 then none else some ((rawPnext % (2 ^ 32 : Int)).toNat)
  match extractI32 r10 with
  | Except.error e => ROut.err e
  | Except.ok (tlen, r11) =>
  match extractBytes (recordLen - 32) r11 with
  | Except.error e => ROut.err e
  | Except.ok (data, rest) =>
  if data.length < queryNameLen then ROut.err { msg := "Invalid query name length" }
  else
  let queryName :=
    if (data.take queryNameLen).getLast? = some 0
    then data.take (queryNameLen - 1) else data.take queryNameLen
  match cigarLoop data nCigarOp queryNameLen [] with
  | ROut.err e => ROut.err e
  | ROut.panic => ROut.panic
  | ROut.ok (cigar, start1) =>
  if data.length ≤ start1 + seqLen / 2 then
    ROut.err { msg := "Record ended abruptly while reading sequence" }
  else
  let seq := seqDecode data start1 seqLen
  let start2 := start1 + (seqLen + 1) / 2
  match data.get? start2 with
  | none => ROut.panic
  | some b =>
  if b = 255 then
    ROut.ok ({ query_name := queryName, flag := flag, ref_name := refName,
               pos := pos, mapq := mapq, cigar := cigar, rnext := rnext,
               pnext := pnext, tlen := tlen, seq := seq, qual := [],
               extra := [] }, rest)
  else if start2 + seqLen ≤ data.length then
    ROut.ok ({ query_name := queryName, flag := flag, ref_name := refName,
               pos := pos, mapq := mapq, cigar := cigar, rnext := rnext,
               pnext := pnext, tlen := tlen, seq := seq,
               qual := ((data.drop start2).take seqLen).map (fun m => (m + 33) % 256),
               extra := [] }, rest)
  else ROut.panic

/-- One next() step of the BAM reader (FromBuffer for Option BamRecord
in sam.rs): capture the buffer position before the record, read the
record length, run extract_bam_record, and tag any error it returns
with the captured byte offset and 1-based record index.  Modelled from
the spec where the ReadBuffer is concerned: readerPos and recordPos are
the buffer's absolute-offset and record counters captured just before
the failing record began, and refill on the fully buffered source adds
nothing. -/
def bamNextRecord (window : List Byte) (readerPos recordPos : Nat)
    (references : List (List Byte × Nat)) : ROut (Option (BamRec × List Byte)) :=
  if window.isEmpty then ROut.ok none
  else
    match extractU 4 window with
    | Except.error e => ROut.err e
    | Except.ok (recLen, r1) =>
      match extractBamRecord r1 recLen references with
      | ROut.err e =>
          ROut.err { e with byte := some readerPos, record := some (recordPos + 1) }
      | ROut.panic => ROut.panic
      | ROut.ok (rec, rest) => ROut.ok (some (rec, rest))

/-- The reference-table loop of the BamState constructor: per reference
a 4-byte name length, the name (one trailing NUL stripped), and a 4-byte
sequence length. -/
def bamRefLoop : Nat → List Byte → Except EtErr (List (List Byte × Nat) × List Byte)
  | 0, l => Except.ok ([], l)
  | n + 1, l =>
    match extractU 4 l with
    | Except.error e => Except.error e
    | Except.ok (nameLen, l1) =>
      match extractBytes nameLen l1 with
      | Except.error e => Except.error e
      | Except.ok (rawName, l2) =>
        let name :=
          if rawName.getLast? = some 0 then rawName.take (nameLen - 1) else rawName
        match extractU 4 l2 with
        | Except.error e => Except.error e
        | Except.ok (refLen, l3) =>
          match bamRefLoop n l3 with
          | Except.error e => Except.error e
          | Except.ok (restRefs, l4) => Except.ok ((name, refLen) :: restRefs, l4)

/-- BamState construction from sam.rs: the 4-byte magic, a header length
whose header text is read with its result discarded (the source ignores
that Result, so a failure there neither consumes nor aborts), then the
reference table. -/
def bamStateGet (l : List Byte) : Except EtErr (List (List Byte × Nat) × List Byte) :=
  match extractBytes 4 l with
  | Except.error e => Except.error e
  | Except.ok (magic, l1) =>
    if magic ≠ [66, 65, 77, 1] then Except.error { msg := "Not a valid BAM file" }
    else
      match extractU 4 l1 with
      | Except.error e => Except.error e
      | Except.ok (headerLen, l2) =>
        let l3 := match extractBytes headerLen l2 with
          | Except.error _ => l2
          | Except.ok (_, rest) => rest
        match extractU 4 l3 with
        | Except.error e => Except.error e
        | Except.ok (nRefs, l4) => bamRefLoop nRefs l4

/-- Drive a fresh BAM reader to its first next() call: build the state,
then attempt the first record, with the position counters at the bytes
consumed by the state and record index 0. -/
def bamFirstRecord (input : List Byte) : ROut (Option (BamRec × List Byte)) :=
  match bamStateGet input with
  | Except.error e => ROut.err e
  | Except.ok (refs, rest) =>
    bamNextRecord rest (input.length - rest.length) 0 refs

end Entab

namespace Entab

/-- An extraction failure is always the canonical premature-end error. -/
theorem extractBytes_err {n : Nat} {l : List Byte} {e : EtErr}
    (h : extractBytes n l = Except.error e) : e = premErr := by
  unfold extractBytes at h
  split at h
  · exact Except.noConfusion h
  · injection h with h
    exact h.symm

/-- Unsigned-integer extraction fails only with the premature-end
error. -/
theorem extractU_err {n : Nat} {l : List Byte} {e : EtErr}
    (h : extractU n l = Except.error e) : e = premErr := by
  unfold extractU at h
  cases hb : extractBytes n l with
  | error e0 =>
    rw [hb] at h
    injection h with h
    subst h
    exact extractBytes_err hb
  | ok v =>
    obtain ⟨bs, rest⟩ := v
    rw [hb] at h
    exact Except.noConfusion h

/-- Signed 32-bit extraction fails only with the premature-end error. -/
theorem extractI32_err {l : List Byte} {e : EtErr}
    (h : extractI32 l = Except.error e) : e = premErr := by
  unfold extractI32 at h
  cases hb : extractU 4 l with
  | error e0 =>
    rw [hb] at h
    injection h with h
    subst h
    exact extractU_err hb
  | ok v =>
    obtain ⟨bs, rest⟩ := v
    rw [hb] at h
    exact Except.noConfusion h

/-- The CIGAR loop fails only with the premature-end error. -/
theorem cigarLoop_err {data : List Byte} {n start : Nat} {acc : List Byte}
    {e : EtErr} (h : cigarLoop data n start acc = ROut.err e) : e = premErr := by
  induction n generalizing start acc with
  | zero => exact ROut.noConfusion h
  | succ k ih =>
    simp only [cigarLoop] at h
    split at h
    · exact ih h
    · injection h with h
      exact h.symm

set_option maxHeartbeats 2000000 in
/-- Every error of extract_bam_record is either one of its own hard
(non-incomplete) errors or the premature-end error of the extraction
layer. -/
theorem extractBamRecord_err (reader : List Byte) (recordLen : Nat)
    (refs : List (List Byte × Nat)) (e : EtErr)
    (h : extractBamRecord reader recordLen refs = ROut.err e) :
    e.incomplete = false ∨ e.msg = "Record ended prematurely" := by
  simp only [extractBamRecord] at h
  repeat' split at h
  all_goals try exact ROut.noConfusion h
  all_goals (injection h with h; subst h)
  all_goals try exact Or.inl rfl
  all_goals rename_i e' he'
  all_goals (
    first
      | (cases extractI32_err he'
         exact Or.inr rfl)
      | (cases extractU_err he'
         exact Or.inr rfl)
      | (cases extractBytes_err he'
         exact Or.inr rfl)
      | (cases cigarLoop_err he'
         exact Or.inr rfl))

/-- The error messages of the three hard failure categories the claim
names: record under 32 bytes, out-of-range reference ids, and variable
data overrunning the declared record length. -/
def hardBamMsgs : List String :=
  ["Record is unexpectedly short", "Invalid reference sequence ID",
   "Invalid next reference sequence ID", "Invalid query name length",
   "Record ended abruptly while reading sequence"]

/-- C6: when a BAM record fails with one of the hard errors — record
length under 32, reference id out of range, or variable data overrunning
the declared record length — the returned error carries the byte offset
and the 1-based record index captured just before the failing record
began, and is a hard (non-incomplete) error. -/
theorem bam_error_positioning (window : List Byte) (readerPos recordPos : Nat)
    (refs : List (List Byte × Nat)) (e : EtErr)
    (h : bamNextRecord window readerPos recordPos refs = ROut.err e)
    (hm : e.msg ∈ hardBamMsgs) :
    e.byte = some readerPos ∧ e.record = some (recordPos + 1) ∧
      e.incomplete = false := by
  simp only [bamNextRecord] at h
  split at h
  · exact ROut.noConfusion h
  · cases hu : extractU 4 window with
    | error e0 =>
      simp only [hu] at h
      injection h with h
      subst h
      cases extractU_err hu
      exact absurd hm (by decide)
    | ok v =>
      obtain ⟨recLen, r1⟩ := v
      simp only [hu] at h
      cases hx : extractBamRecord r1 recLen refs with
      | err e0 =>
        simp only [hx] at h
        injection h with h
        subst h
        refine ⟨rfl, rfl, ?_⟩
        rcases extractBamRecord_err _ _ _ _ hx with hinc | hmsg
        · exact hinc
        · have hm' : e0.msg ∈ hardBamMsgs := hm
          rw [hmsg] at hm'
          exact absurd hm' (by decide)
      | ok v0 =>
        obtain ⟨rec, rest⟩ := v0
        simp only [hx] at h
        exact ROut.noConfusion h
      | panic =>
        simp only [hx] at h
        exact ROut.noConfusion h

/-- Witness for bam_error_positioning: a window whose declared record
length is 10 (< 32), read at byte offset 7 with two records already
decoded; the short-record error is tagged byte 7, record 3. -/
theorem bam_error_positioning_witness :
    ({ msg := "Record is unexpectedly short", incomplete := false,
       byte := some 7, record := some 3 } : EtErr).byte = some 7 ∧
    ({ msg := "Record is unexpectedly short", incomplete := false,
       byte := some 7, record := some 3 } : EtErr).record = some (2 + 1) ∧
    ({ msg := "Record is unexpectedly short", incomplete := false,
       byte := some 7, record := some 3 } : EtErr).incomplete = false :=
  bam_error_positioning [10, 0, 0, 0] 7 2 []
    { msg := "Record is unexpectedly short", incomplete := false,
      byte := some 7, record := some 3 }
    (by rfl) (by decide)

/-- C1: the BAM reader does not always fail cleanly on fuzzed input —
this well-formed-looking 49-byte stream (empty header, no references,
one record of declared length 33 with seq_len 1, no CIGAR ops and an
empty query name) drives extract_bam_record to read the quality sentinel
data[start] with start equal to data's length: a Rust index-out-of-bounds
panic, not an error. -/
theorem bam_fuzz_panics :
    bamFirstRecord
      [66, 65, 77, 1, 0, 0, 0, 0, 0, 0, 0, 0, 33, 0, 0, 0,
       255, 255, 255, 255, 255, 255, 255, 255, 0, 255, 0, 0, 0, 0, 0, 0,
       1, 0, 0, 0, 255, 255, 255, 255, 255, 255, 255, 255, 0, 0, 0, 0, 0] =
      ROut.panic := by
  rfl

end Entab
